import Mathlib

/-!
Verification of the numeric reconciliation and series-smoothing pipeline of the
Swedish annual-reports archive.

The development shallowly embeds the relevant Python modules:

* `src/08-smooth-numerics.py` — field reconciliation across three extraction
  attempts per (company, fiscal_year), with adjacent-year fallback smoothing
  (`process_numeric_field`, `smooth_numeric_field`, `process_year_reports`,
  and the driver loop of `main`);
* `src/09-get-pandas-df.py` — assembly of the per-year summary JSON files into
  a flat record table;
* `src/10-smooth-series.py` — per-company series post-processing
  (`adjust_scale`, `winsorize`).

Numbers are modelled as exact rationals (`ℚ`) where the Python code does exact
enough arithmetic for the properties at stake, and as reals (`ℝ`) for the
series-smoothing module whose code calls `log10`, k-means and `sqrt`.
Python exceptions are modelled with `Except`: the only uncaught exception
reachable in the embedded fragment is `ZeroDivisionError`.
-/

namespace AnnualReports

/-- Python exceptions that can escape the embedded fragment of
`08-smooth-numerics.py`.  The only reachable one is `ZeroDivisionError`,
raised by `abs(v - adjacent_avg) / abs(adjacent_avg)` when the pooled
adjacent mean is exactly zero (line 115). -/
inductive PyErr where
  | zeroDivision
deriving DecidableEq

/-- One structured extraction attempt (`{company}-{year}_{i}.json`), as read by
`load_json`.  The three numeric groups are dictionaries from field name to an
optional number (`null` in the JSON becomes `none`); a group may itself be
absent or `null` (the outer `Option`).  Non-numeric fields (`board`,
`auditors`) are kept opaque as lists of strings; `.get("board", [])` in the
source makes an absent board the empty list, so no outer `Option` is needed
for them. -/
structure Report where
  company_name : Option String := none
  fiscal_year : Option Int := none
  additional_notes : Option String := none
  income_statement : Option (List (String × Option ℚ)) := none
  balance_sheet : Option (List (String × Option ℚ)) := none
  employees : Option (List (String × Option ℚ)) := none
  board : List String := []
  auditors : List String := []
deriving DecidableEq

/-- The summary record written by `process_year_reports`
(`{company}-{year}_summary.json`). -/
structure Summary where
  company_name : Option String
  fiscal_year : Option Int
  additional_notes : Option String
  income_statement : List (String × Option ℚ)
  balance_sheet : List (String × Option ℚ)
  employees : List (String × Option ℚ)
  board : List String
  auditors : List String
deriving DecidableEq

/-- Embedding of `report.get(group)` for the three numeric groups traversed by
`process_numeric_field`.  Any other first path component is a non-dict value
in the source documents; `val.get(key)` on it raises `AttributeError`, which
the `try`/`except` of lines 27–36 catches and turns into "value absent",
hence `none` here. -/
def getGroup (r : Report) (g : String) : Option (List (String × Option ℚ)) :=
  if g = "income_statement" then r.income_statement
  else if g = "balance_sheet" then r.balance_sheet
  else if g = "employees" then r.employees
  else none

/-- The two-level field-path walk of `process_numeric_field` lines 28–34:
`val = report`; `val = val.get(group)`; if `val is None` stop; `val =
val.get(key)`.  Returns the extracted numeric value, or `none` when the
group is absent/null, the key is absent, or the value is `null`. -/
def getPath (r : Report) (g k : String) : Option ℚ :=
  (getGroup r g).bind fun d => (d.lookup k).bind id

/-- Lines 25–34 / 97–107: collect the non-null values of field `(g, k)`
across a list of reports. -/
def extractValues (reports : List Report) (g k : String) : List ℚ :=
  reports.filterMap fun r => getPath r g k

/-- Embedding of `statistics.mean` — exact arithmetic mean.  (Guarded by non-emptiness at
every call site in the source.) -/
def mean (l : List ℚ) : ℚ :=
  l.sum / l.length

/-- Python `min` over a non-empty list (0 as junk value on `[]`). -/
def listMin (l : List ℚ) : ℚ :=
  match l with
  | [] => 0
  | x :: xs => xs.foldl min x

/-- Python `max` over a non-empty list (0 as junk value on `[]`). -/
def listMax (l : List ℚ) : ℚ :=
  match l with
  | [] => 0
  | x :: xs => xs.foldl max x

/-- Lines 40–47: relative discrepancy `(max − min) / abs(mean)`, defined as 0
when the mean is 0 ("Avoid division by zero"). -/
def discOf (l : List ℚ) : ℚ :=
  if mean l = 0 then 0 else (listMax l - listMin l) / |mean l|

/-- Lines 81–95 of `smooth_numeric_field`: load the adjacent-year reports.
`env year` stands for `load_year_reports(year)` — the list of reports of that
year whose files exist and parse (missing or malformed files contribute
nothing, by `load_json` returning `None` and the `if rep:` filter).
If the previous year has no loadable reports but the next does, pool years
`year+1` and `year+2` (previous side explicitly empty); symmetrically when
only the previous side has data. -/
def adjacentReports (env : Int → List Report) (year : Int) : List Report :=
  let prev := env (year - 1)
  let next := env (year + 1)
  if prev = [] ∧ next ≠ [] then env (year + 1) ++ env (year + 2)
  else if next = [] ∧ prev ≠ [] then env (year - 1) ++ env (year - 2)
  else prev ++ next

/-- Lines 60–120, `smooth_numeric_field`: pool the adjacent values of the
field; if none, return `None`.  Otherwise keep the current values within 20%
of the adjacent mean and return their mean, or `None` if none qualify.
The filter `abs(v - adjacent_avg) / abs(adjacent_avg) < 0.2` is evaluated for
each current value: when `adjacent_avg` is exactly 0 and `current_values` is
non-empty, Python raises `ZeroDivisionError` — modelled by the `.error`
branch. -/
def smooth_numeric_field (env : Int → List Report) (g k : String) (year : Int)
    (current_values : List ℚ) : Except PyErr (Option ℚ) :=
  let adjacent_values := extractValues (adjacentReports env year) g k
  if adjacent_values = [] then .ok none
  else
    let adjacent_avg := mean adjacent_values
    if adjacent_avg = 0 ∧ current_values ≠ [] then .error .zeroDivision
    else
      let valid_current := current_values.filter fun v =>
        |v - adjacent_avg| / |adjacent_avg| < 0.2
      if valid_current = [] then .ok none
      else .ok (some (mean valid_current))

/-- Lines 19–58, `process_numeric_field`: extract the non-null values of the
field across the up-to-three attempts; `None` if there are none; their mean if
the discrepancy is below 20%; otherwise the smoothing result, falling back to
the mean when smoothing yields `None`. -/
def process_numeric_field (g k : String) (reports : List Report)
    (env : Int → List Report) (year : Int) : Except PyErr (Option ℚ) :=
  let values := extractValues reports g k
  if values = [] then .ok none
  else if discOf values < 0.2 then .ok (some (mean values))
  else
    match smooth_numeric_field env g k year values with
    | .error e => .error e
    | .ok (some s) => .ok (some s)
    | .ok none => .ok (some (mean values))

/-- Keys of a (possibly absent) numeric group:
`primary_report.get(group) or {}` followed by `for key in ...`. -/
def groupKeys (g : Option (List (String × Option ℚ))) : List String :=
  (g.getD []).map Prod.fst

/-- Lines 161–172: build one summary group by reconciling every key of the
primary attempt's group.  An exception from `process_numeric_field`
propagates (the loop body is not wrapped in `try`). -/
def buildGroup (g : String) (keys : List String) (reports : List Report)
    (env : Int → List Report) (year : Int) : Except PyErr (List (String × Option ℚ)) :=
  match keys with
  | [] => .ok []
  | k :: ks =>
    match process_numeric_field g k reports env year with
    | .error e => .error e
    | .ok v =>
      match buildGroup g ks reports env year with
      | .error e => .error e
      | .ok rest => .ok ((k, v) :: rest)

/-- Lines 122–184, `process_year_reports`: `load year` models the loop of
lines 129–139 (the reports of the current year whose files exist and parse,
in attempt order); if none, log and skip (`.ok none` — no summary is
produced).  Otherwise the first loaded report is the primary
(`reports[0]` is never `None` here since only truthy parses are appended),
and a summary is built: numeric groups reconciled key by key, non-numeric
fields copied from the primary. -/
def process_year_reports (load : Int → List Report) (env : Int → List Report)
    (year : Int) : Except PyErr (Option Summary) :=
  match load year with
  | [] => .ok none
  | primary :: rest =>
    match buildGroup "income_statement" (groupKeys primary.income_statement)
        (primary :: rest) env year with
    | .error e => .error e
    | .ok inc =>
      match buildGroup "balance_sheet" (groupKeys primary.balance_sheet)
          (primary :: rest) env year with
      | .error e => .error e
      | .ok bal =>
        match buildGroup "employees" (groupKeys primary.employees)
            (primary :: rest) env year with
        | .error e => .error e
        | .ok emp =>
          .ok (some
            { company_name := primary.company_name
              fiscal_year := primary.fiscal_year
              additional_notes := primary.additional_notes
              income_statement := inc
              balance_sheet := bal
              employees := emp
              board := primary.board
              auditors := primary.auditors })

/-- The per-company loop of `main` (lines 213–217): process each year in
order; a year that produced no summary contributes nothing to the output
(no file is written for it) and the loop moves on. -/
def runYears (load : Int → List Report) (env : Int → List Report) :
    List Int → Except PyErr (List (Int × Summary))
  | [] => .ok []
  | y :: ys =>
    match process_year_reports load env y with
    | .error e => .error e
    | .ok s =>
      match runYears load env ys with
      | .error e => .error e
      | .ok rest =>
        match s with
        | none => .ok rest
        | some sm => .ok ((y, sm) :: rest)

/-! ### Concrete inputs used by witnesses and counterexamples -/

/-- A report whose only numeric field is `income_statement.revenue`. -/
def revReport (q : ℚ) : Report :=
  { income_statement := some [("revenue", some q)] }

/-- The spec's high-discrepancy example: attempts extracting 100, 100, 1000. -/
def attemptsHigh : List Report :=
  [revReport 100, revReport 100, revReport 1000]

/-- Attempts extracting 100, 105, 110 (the spec's low-discrepancy example). -/
def attemptsLow : List Report :=
  [revReport 100, revReport 105, revReport 110]

/-- A file-system environment with no reports in any year. -/
def envEmpty : Int → List Report := fun _ => []

/-- A file-system environment whose adjacent years 1949 and 1951 hold reports
extracting −5 and 5: the pooled adjacent mean is exactly 0. -/
def envZeroMean : Int → List Report := fun z =>
  if z = 1949 then [revReport (-5)]
  else if z = 1951 then [revReport 5]
  else []

/-- An environment with reports only in 1951 and 1952 (next side only). -/
def envNextOnly : Int → List Report := fun z =>
  if z = 1951 then [revReport 5]
  else if z = 1952 then [revReport 6]
  else []

/-- A base-directory load function: year 1950 holds one report extracting
`income_statement.revenue = 100`, every other year nothing. -/
def load1950 : Int → List Report := fun z =>
  if z = 1950 then [revReport 100] else []

/-- The summary `process_year_reports` produces from `load1950` at 1950. -/
def sum1950 : Summary :=
  { company_name := none, fiscal_year := none, additional_notes := none
    income_statement := [("revenue", some 100)]
    balance_sheet := [], employees := [], board := [], auditors := [] }

/-! ## Stage 09: `09-get-pandas-df.py` — Cross-Sectional Assembler -/

/-- Embedding of `group.get(key)` on a summary group: `none` both when the key is absent
and when its stored value is `null`. -/
def lookupQ (g : List (String × Option ℚ)) (k : String) : Option ℚ :=
  (g.lookup k).bind id

/-- One row of the assembled DataFrame (lines 44–76): identity columns from
the filename, plus the fixed set of seventeen numeric columns extracted by
name. -/
structure Record where
  company_name : String
  fiscal_year : Int
  revenue : Option ℚ
  cost_of_goods_sold : Option ℚ
  operating_expenses : Option ℚ
  wages_expense : Option ℚ
  tax_expense : Option ℚ
  depreciation : Option ℚ
  net_income : Option ℚ
  total_assets : Option ℚ
  current_assets : Option ℚ
  fixed_assets : Option ℚ
  total_liabilities : Option ℚ
  current_liabilities : Option ℚ
  long_term_liabilities : Option ℚ
  n_employees : Option ℚ
  n_blue_collar_workers : Option ℚ
  n_white_collar_workers : Option ℚ
  shareholders_equity : Option ℚ
deriving DecidableEq

/-- Lines 44–76 of `09-get-pandas-df.py`: build one record from one summary
file.  `company` and `year` come from the filename regex; the summary's own
identity fields are ignored, and only the fixed field names listed in the
source are read — any other field of the summary is never consulted. -/
def makeRecord (company : String) (year : Int) (data : Summary) : Record :=
  { company_name := company
    fiscal_year := year
    revenue := lookupQ data.income_statement "revenue"
    cost_of_goods_sold := lookupQ data.income_statement "cost_of_goods_sold"
    operating_expenses := lookupQ data.income_statement "operating_expenses"
    wages_expense := lookupQ data.income_statement "wages_expense"
    tax_expense := lookupQ data.income_statement "tax_expense"
    depreciation := lookupQ data.income_statement "depreciation"
    net_income := lookupQ data.income_statement "net_income"
    total_assets := lookupQ data.balance_sheet "total_assets"
    current_assets := lookupQ data.balance_sheet "current_assets"
    fixed_assets := lookupQ data.balance_sheet "fixed_assets"
    total_liabilities := lookupQ data.balance_sheet "total_liabilities"
    current_liabilities := lookupQ data.balance_sheet "current_liabilities"
    long_term_liabilities := lookupQ data.balance_sheet "long_term_liabilities"
    n_employees := lookupQ data.employees "n_employees"
    n_blue_collar_workers := lookupQ data.employees "n_blue_collar_workers"
    n_white_collar_workers := lookupQ data.employees "n_white_collar_workers"
    shareholders_equity := lookupQ data.balance_sheet "shareholders_equity" }

/-- The record-assembly loop (lines 26–76): one record per summary file that
matched the filename pattern and existed; no comparison between the field
sets of different summaries occurs anywhere, and no exception is raised on a
summary whose field set differs. -/
def assemble (entries : List (String × Int × Summary)) : List Record :=
  entries.map fun e => makeRecord e.1 e.2.1 e.2.2

/-- The income-statement field names read by the assembler. -/
def incomeKeys : List String :=
  ["revenue", "cost_of_goods_sold", "operating_expenses", "wages_expense",
   "tax_expense", "depreciation", "net_income"]

/-- The balance-sheet field names read by the assembler. -/
def balanceKeys : List String :=
  ["total_assets", "current_assets", "fixed_assets", "total_liabilities",
   "current_liabilities", "long_term_liabilities", "shareholders_equity"]

/-- The employee field names read by the assembler. -/
def employeeKeys : List String :=
  ["n_employees", "n_blue_collar_workers", "n_white_collar_workers"]

/-- Restriction of a summary group to a list of field names (first binding
per name, in the order of the name list). -/
def restrictTo (g : List (String × Option ℚ)) (ks : List String) :
    List (String × Option ℚ) :=
  ks.filterMap fun k => (g.lookup k).map fun v => (k, v)

/-- The projection of a summary onto exactly the data the assembler reads:
the fixed numeric field names.  Identity fields, notes, board and auditors
are erased, since `makeRecord` never consults them. -/
def projectFixed (s : Summary) : Summary :=
  { company_name := none
    fiscal_year := none
    additional_notes := none
    income_statement := restrictTo s.income_statement incomeKeys
    balance_sheet := restrictTo s.balance_sheet balanceKeys
    employees := restrictTo s.employees employeeKeys
    board := []
    auditors := [] }

/-- The set of field names of a summary, as one list — what the spec calls
the summary's schema. -/
def fieldNames (s : Summary) : List String :=
  s.income_statement.map Prod.fst ++ s.balance_sheet.map Prod.fst
    ++ s.employees.map Prod.fst

/-- A summary whose only field is `income_statement.revenue`. -/
def sumRevenue : Summary :=
  { company_name := none, fiscal_year := none, additional_notes := none
    income_statement := [("revenue", some 1)]
    balance_sheet := [], employees := [], board := [], auditors := [] }

/-- A summary whose only field is the unknown `income_statement.weird_field`:
its field-name set differs from `sumRevenue`'s. -/
def sumWeird : Summary :=
  { company_name := none, fiscal_year := none, additional_notes := none
    income_statement := [("weird_field", some 2)]
    balance_sheet := [], employees := [], board := [], auditors := [] }

/-- A summary with no fields at all. -/
def emptySum : Summary :=
  { company_name := none, fiscal_year := none, additional_notes := none
    income_statement := [], balance_sheet := [], employees := []
    board := [], auditors := [] }

/-! ## Stage 10: `10-smooth-series.py` — Scale Normalizer and Winsorizer

The series of one numeric column for one company is a list of optional reals
(positional index).  `np.log10` and `sklearn.KMeans` are external library
calls: the k-means fit is therefore a parameter — a function taking the
log-values of the strictly positive entries and returning a label in
`Fin 2` for each of them together with the two cluster centers
(`kmeans.labels_`, `kmeans.cluster_centers_`).  Everything `adjust_scale`
does with the fit's result is embedded exactly. -/

/-- The result type of `KMeans(n_clusters=2).fit` on the log values: per-point
labels and the two cluster centers. -/
def KMeansFit : Type :=
  List ℝ → List (Fin 2) × ℝ × ℝ

/-- Positions of the strictly positive non-null entries of the series:
`valid = series[series > 0].dropna()` keeps its original index. -/
noncomputable def posIndices (s : List (Option ℝ)) : List ℕ :=
  (List.range s.length).filter fun i =>
    match s.getD i none with
    | some v => if 0 < v then true else false
    | none => false

/-- The strictly positive values themselves (`valid.values`), in index
order. -/
noncomputable def posVals (s : List (Option ℝ)) : List ℝ :=
  (posIndices s).map fun i => (s.getD i none).getD 0

/-- Embedding of `np.log10(valid.values)`. -/
noncomputable def logVals (s : List (Option ℝ)) : List ℝ :=
  (posVals s).map fun v => Real.logb 10 v

/-- Embedding of `kmeans.labels_`. -/
noncomputable def kmLabels (km : KMeansFit) (s : List (Option ℝ)) : List (Fin 2) :=
  (km (logVals s)).1

/-- Embedding of `centers[0]`. -/
noncomputable def kmCenter0 (km : KMeansFit) (s : List (Option ℝ)) : ℝ :=
  (km (logVals s)).2.1

/-- Embedding of `centers[1]`. -/
noncomputable def kmCenter1 (km : KMeansFit) (s : List (Option ℝ)) : ℝ :=
  (km (logVals s)).2.2

/-- Embedding of `np.argmin(centers)` — the first center on a tie, as `np.argmin` returns
the first minimal index. -/
noncomputable def lowerCluster (km : KMeansFit) (s : List (Option ℝ)) : Fin 2 :=
  if kmCenter0 km s ≤ kmCenter1 km s then 0 else 1

/-- Embedding of `factor = 10 ** np.abs(centers.max() - centers.min())` — a real power of
ten, `max − min` being exactly `|centers[0] − centers[1]|`. -/
noncomputable def scaleFactor (km : KMeansFit) (s : List (Option ℝ)) : ℝ :=
  (10 : ℝ) ^ (max (kmCenter0 km s) (kmCenter1 km s) - min (kmCenter0 km s) (kmCenter1 km s))

/-- Embedding of `lower_indices = valid.index[labels == lower_cluster]`: the original
positions of the positive entries whose label is the lower cluster. -/
noncomputable def lowerIndices (km : KMeansFit) (s : List (Option ℝ)) : List ℕ :=
  ((posIndices s).zip (kmLabels km s)).filterMap fun p =>
    if p.2 = lowerCluster km s then some p.1 else none

/-- Lines 19–49, `adjust_scale`: fewer than 10 positive values, or cluster
centers closer than 2.5 in log10 space — return the series unchanged;
otherwise multiply the lower-cluster positions by the factor and leave every
other position untouched. -/
noncomputable def adjust_scale (km : KMeansFit) (s : List (Option ℝ)) : List (Option ℝ) :=
  if (posIndices s).length < 10 then s
  else if |kmCenter0 km s - kmCenter1 km s| < 2.5 then s
  else s.enum.map fun p =>
    if p.1 ∈ lowerIndices km s then p.2.map fun v => v * scaleFactor km s else p.2

/-- Embedding of `series.median()` / `np.median`: middle element of the sorted list for
odd length, average of the two middle elements for even length. -/
noncomputable def median (l : List ℝ) : ℝ :=
  if l.length % 2 = 1 then (l.mergeSort fun a b => decide (a ≤ b)).getD (l.length / 2) 0
  else if l.length = 0 then 0
  else ((l.mergeSort fun a b => decide (a ≤ b)).getD (l.length / 2 - 1) 0
    + (l.mergeSort fun a b => decide (a ≤ b)).getD (l.length / 2) 0) / 2

/-- Arithmetic mean over the reals (used by `std`). -/
noncomputable def meanR (l : List ℝ) : ℝ :=
  l.sum / l.length

/-- Embedding of `series.std()` — the pandas default sample standard deviation
(`ddof=1`). -/
noncomputable def std (l : List ℝ) : ℝ :=
  Real.sqrt (((l.map fun x => (x - meanR l) ^ 2).sum) / ((l.length : ℝ) - 1))

/-- Lines 55–58 of `winsorize`: the median absolute deviation, with the
standard deviation substituted when the MAD is exactly zero. -/
noncomputable def madOr (l : List ℝ) : ℝ :=
  if median (l.map fun x => |x - median l|) = 0 then std l
  else median (l.map fun x => |x - median l|)

/-- Lines 51–61, `winsorize`: clip every value to
`[median − threshold·mad, median + threshold·mad]`
(`series.clip(lower=..., upper=...)`). -/
noncomputable def winsorize (series : List ℝ) (threshold : ℝ) : List ℝ :=
  series.map fun x =>
    min (max x (median series - threshold * madOr series))
      (median series + threshold * madOr series)

/-- The spec's winsorization example series: a constant `v` repeated 20
times, plus one outlier `v·100`. -/
noncomputable def constOutlier (v : ℝ) : List ℝ :=
  List.replicate 20 v ++ [v * 100]

/-- A degenerate k-means stub used to instantiate the scale-adjustment
theorem at a concrete input. -/
def kmTrivial : KMeansFit := fun _ => ([], 0, 0)

/-! ## Helper lemmas about `listMin`, `listMax` and `mean` -/

theorem foldl_min_le_init (xs : List ℚ) (a : ℚ) : xs.foldl min a ≤ a := by
  induction xs generalizing a with
  | nil => simp
  | cons x xs ih => exact le_trans (ih (min a x)) (min_le_left a x)

theorem foldl_min_le_mem (xs : List ℚ) (a : ℚ) {x : ℚ} (hx : x ∈ xs) :
    xs.foldl min a ≤ x := by
  induction xs generalizing a with
  | nil => cases hx
  | cons y ys ih =>
    rcases List.mem_cons.mp hx with h | h
    · subst h
      exact le_trans (foldl_min_le_init ys (min a x)) (min_le_right a x)
    · exact ih (min a y) h

theorem init_le_foldl_max (xs : List ℚ) (a : ℚ) : a ≤ xs.foldl max a := by
  induction xs generalizing a with
  | nil => simp
  | cons x xs ih => exact le_trans (le_max_left a x) (ih (max a x))

theorem mem_le_foldl_max (xs : List ℚ) (a : ℚ) {x : ℚ} (hx : x ∈ xs) :
    x ≤ xs.foldl max a := by
  induction xs generalizing a with
  | nil => cases hx
  | cons y ys ih =>
    rcases List.mem_cons.mp hx with h | h
    · subst h
      exact le_trans (le_max_right a x) (init_le_foldl_max ys (max a x))
    · exact ih (max a y) h

theorem listMin_le {l : List ℚ} {x : ℚ} (hx : x ∈ l) : listMin l ≤ x := by
  match l with
  | y :: ys =>
    rcases List.mem_cons.mp hx with h | h
    · subst h; exact foldl_min_le_init ys x
    · exact foldl_min_le_mem ys y h

theorem le_listMax {l : List ℚ} {x : ℚ} (hx : x ∈ l) : x ≤ listMax l := by
  match l with
  | y :: ys =>
    rcases List.mem_cons.mp hx with h | h
    · subst h; exact init_le_foldl_max ys x
    · exact mem_le_foldl_max ys y h

theorem mul_length_le_sum {l : List ℚ} {a : ℚ} (h : ∀ x ∈ l, a ≤ x) :
    a * l.length ≤ l.sum := by
  induction l with
  | nil => simp
  | cons x xs ih =>
    have hx := h x (List.mem_cons_self x xs)
    have hs := ih fun y hy => h y (List.mem_cons_of_mem x hy)
    rw [List.sum_cons, List.length_cons]
    push_cast
    linarith

theorem sum_le_mul_length {l : List ℚ} {b : ℚ} (h : ∀ x ∈ l, x ≤ b) :
    l.sum ≤ b * l.length := by
  induction l with
  | nil => simp
  | cons x xs ih =>
    have hx := h x (List.mem_cons_self x xs)
    have hs := ih fun y hy => h y (List.mem_cons_of_mem x hy)
    rw [List.sum_cons, List.length_cons]
    push_cast
    linarith

theorem le_mean_of_forall {l : List ℚ} {a : ℚ} (hne : l ≠ [])
    (h : ∀ x ∈ l, a ≤ x) : a ≤ mean l := by
  have hl : (0 : ℚ) < l.length := by
    exact_mod_cast List.length_pos.mpr hne
  rw [mean, le_div_iff₀ hl]
  exact mul_length_le_sum h

theorem mean_le_of_forall {l : List ℚ} {b : ℚ} (hne : l ≠ [])
    (h : ∀ x ∈ l, x ≤ b) : mean l ≤ b := by
  have hl : (0 : ℚ) < l.length := by
    exact_mod_cast List.length_pos.mpr hne
  rw [mean, div_le_iff₀ hl]
  exact sum_le_mul_length h

theorem mean_in_range {l : List ℚ} (hne : l ≠ []) :
    listMin l ≤ mean l ∧ mean l ≤ listMax l :=
  ⟨le_mean_of_forall hne fun _ hx => listMin_le hx,
   mean_le_of_forall hne fun _ hx => le_listMax hx⟩

/-! ## Claims about the Field Reconciler (`08-smooth-numerics.py`) -/

/-- C1: for every list of up to three attempt values whose non-null members
have relative discrepancy `(max − min) / |mean|` strictly below 0.2
(discrepancy 0 when the mean is 0, as `discOf` encodes), reconciliation
returns exactly the arithmetic mean of the non-null values.  The environment
`env` of adjacent-year files is universally quantified and absent from the
conclusion: the adjacent-year smoothing path, the only consumer of `env`, is
not taken. -/
theorem claim_C1 (g k : String) (reports : List Report) (env : Int → List Report)
    (year : Int) (_hlen : reports.length ≤ 3)
    (hne : extractValues reports g k ≠ [])
    (hdisc : discOf (extractValues reports g k) < 0.2) :
    process_numeric_field g k reports env year
      = .ok (some (mean (extractValues reports g k))) := by
  simp only [process_numeric_field, if_neg hne, if_pos hdisc]

theorem claim_C1_witness :
    process_numeric_field "income_statement" "revenue" attemptsLow envEmpty 1950
      = .ok (some 105) := by
  have hv : extractValues attemptsLow "income_statement" "revenue"
      = [100, 105, 110] := by
    simp [extractValues, attemptsLow, revReport, getPath, getGroup, List.lookup]
  have h := claim_C1 "income_statement" "revenue" attemptsLow envEmpty 1950
    (by simp [attemptsLow])
    (by rw [hv]; simp)
    (by rw [hv]; norm_num [discOf, mean, listMin, listMax, min_def, max_def])
  rw [h, hv]
  norm_num [mean]

/-- C3: the adjacent-year fallback of `smooth_numeric_field`.  When the year
immediately before yields no loadable reports but the year after does, the
pooled adjacent report set is taken from years `year+1` and `year+2`; and
symmetrically, when only the previous side has data, from `year−1` and
`year−2`. -/
theorem claim_C3 (env : Int → List Report) (year : Int) :
    (env (year - 1) = [] → env (year + 1) ≠ [] →
      adjacentReports env year = env (year + 1) ++ env (year + 2))
    ∧ (env (year + 1) = [] → env (year - 1) ≠ [] →
      adjacentReports env year = env (year - 1) ++ env (year - 2)) := by
  constructor
  · intro hprev hnext
    simp only [adjacentReports, if_pos (And.intro hprev hnext)]
  · intro hnext hprev
    have hcond : ¬ (env (year - 1) = [] ∧ env (year + 1) ≠ []) := by
      rintro ⟨h1, h2⟩
      exact h2 hnext
    simp only [adjacentReports, if_neg hcond, if_pos (And.intro hnext hprev)]

theorem claim_C3_witness :
    adjacentReports envNextOnly 1950 = [revReport 5, revReport 6] := by
  have h := (claim_C3 envNextOnly 1950).1
    (by norm_num [envNextOnly])
    (by norm_num [envNextOnly])
  rw [h]
  norm_num [envNextOnly]

/-- C4: when the non-null current values have discrepancy at least 0.2 and
the widened adjacent search locates no value (the pooled adjacent extraction
is empty), reconciliation returns the plain mean of the current values; in
particular attempts extracting 100, 100, 1000 with no adjacent data at all
yield 400. -/
theorem claim_C4 :
    (∀ (g k : String) (reports : List Report) (env : Int → List Report) (year : Int),
      extractValues reports g k ≠ [] →
      ¬ discOf (extractValues reports g k) < 0.2 →
      extractValues (adjacentReports env year) g k = [] →
      process_numeric_field g k reports env year
        = .ok (some (mean (extractValues reports g k))))
    ∧ process_numeric_field "income_statement" "revenue" attemptsHigh envEmpty 1950
        = .ok (some 400) := by
  have main : ∀ (g k : String) (reports : List Report) (env : Int → List Report) (year : Int),
      extractValues reports g k ≠ [] →
      ¬ discOf (extractValues reports g k) < 0.2 →
      extractValues (adjacentReports env year) g k = [] →
      process_numeric_field g k reports env year
        = .ok (some (mean (extractValues reports g k))) := by
    intro g k reports env year hne hdisc hadj
    have hsm : smooth_numeric_field env g k year (extractValues reports g k)
        = .ok none := by
      simp only [smooth_numeric_field, if_pos hadj]
    simp only [process_numeric_field, if_neg hne, if_neg hdisc, hsm]
  refine ⟨main, ?_⟩
  have hv : extractValues attemptsHigh "income_statement" "revenue"
      = [100, 100, 1000] := by
    simp [extractValues, attemptsHigh, revReport, getPath, getGroup, List.lookup]
  have hadj : extractValues (adjacentReports envEmpty 1950) "income_statement" "revenue"
      = [] := by
    simp [adjacentReports, envEmpty, extractValues]
  have h := main "income_statement" "revenue" attemptsHigh envEmpty 1950
    (by rw [hv]; simp)
    (by rw [hv]; norm_num [discOf, mean, listMin, listMax, min_def, max_def])
    hadj
  rw [h, hv]
  norm_num [mean]

theorem claim_C4_witness :
    process_numeric_field "balance_sheet" "total_assets"
      [{ balance_sheet := some [("total_assets", some 10)] },
       { balance_sheet := some [("total_assets", some 20)] }] envEmpty 1960
      = .ok (some 15) := by
  have hv : extractValues
      [({ balance_sheet := some [("total_assets", some 10)] } : Report),
       { balance_sheet := some [("total_assets", some 20)] }]
      "balance_sheet" "total_assets" = [10, 20] := by
    simp [extractValues, getPath, getGroup, List.lookup]
  have hadj : extractValues (adjacentReports envEmpty 1960) "balance_sheet" "total_assets"
      = [] := by
    simp [adjacentReports, envEmpty, extractValues]
  have h := claim_C4.1 "balance_sheet" "total_assets"
    [{ balance_sheet := some [("total_assets", some 10)] },
     { balance_sheet := some [("total_assets", some 20)] }] envEmpty 1960
    (by rw [hv]; simp)
    (by rw [hv]; norm_num [discOf, mean, listMin, listMax, min_def, max_def])
    hadj
  rw [h, hv]
  norm_num [mean]

/-- C2 (code bug): reconciliation is claimed never to raise, but
`smooth_numeric_field` divides by `abs(adjacent_avg)` without a zero guard
(line 115 of `08-smooth-numerics.py`): with current attempts extracting
100, 100, 1000 (discrepancy 2.25 ≥ 0.2 forces the smoothing path) and
adjacent years holding the values −5 and 5 (pooled mean exactly 0), the
Python code raises `ZeroDivisionError`. -/
theorem claim_C2_bug :
    process_numeric_field "income_statement" "revenue" attemptsHigh envZeroMean 1950
      = .error .zeroDivision := by
  simp only [process_numeric_field, smooth_numeric_field, extractValues, getPath, getGroup,
    adjacentReports, attemptsHigh, revReport, envZeroMean, mean, discOf, listMin, listMax,
    List.filterMap, List.lookup, Option.bind, List.cons_ne_nil, ne_eq]
  norm_num [List.cons_ne_nil, min_def, max_def]

/-- C10: whenever field reconciliation returns normally with a non-null
value, that value lies in the closed interval spanned by the non-null
current-year attempt values: every normal return path is the mean of a
non-empty subset of those values. -/
theorem claim_C10 (g k : String) (reports : List Report) (env : Int → List Report)
    (year : Int) (r : ℚ)
    (h : process_numeric_field g k reports env year = .ok (some r)) :
    listMin (extractValues reports g k) ≤ r
    ∧ r ≤ listMax (extractValues reports g k) := by
  by_cases hne : extractValues reports g k = []
  · simp only [process_numeric_field, if_pos hne] at h
    simp at h
  · simp only [process_numeric_field, if_neg hne] at h
    by_cases hdisc : discOf (extractValues reports g k) < 0.2
    · rw [if_pos hdisc] at h
      simp only [Except.ok.injEq, Option.some.injEq] at h
      subst h
      exact mean_in_range hne
    · rw [if_neg hdisc] at h
      rcases hs : smooth_numeric_field env g k year (extractValues reports g k) with e | o
      · rw [hs] at h
        simp at h
      · cases o with
        | none =>
          rw [hs] at h
          simp only [Except.ok.injEq, Option.some.injEq] at h
          subst h
          exact mean_in_range hne
        | some s =>
          rw [hs] at h
          simp only [Except.ok.injEq, Option.some.injEq] at h
          subst h
          by_cases hadj : extractValues (adjacentReports env year) g k = []
          · simp only [smooth_numeric_field, if_pos hadj] at hs
            simp at hs
          · simp only [smooth_numeric_field, if_neg hadj] at hs
            by_cases hz : mean (extractValues (adjacentReports env year) g k) = 0
                ∧ extractValues reports g k ≠ []
            · rw [if_pos hz] at hs
              simp at hs
            · rw [if_neg hz] at hs
              by_cases hvne : ((extractValues reports g k).filter fun v =>
                  |v - mean (extractValues (adjacentReports env year) g k)|
                    / |mean (extractValues (adjacentReports env year) g k)| < 0.2) = []
              · rw [if_pos hvne] at hs
                simp at hs
              · rw [if_neg hvne] at hs
                simp only [Except.ok.injEq, Option.some.injEq] at hs
                subst hs
                constructor
                · exact le_mean_of_forall hvne fun x hx =>
                    listMin_le (List.mem_of_mem_filter hx)
                · exact mean_le_of_forall hvne fun x hx =>
                    le_listMax (List.mem_of_mem_filter hx)

theorem claim_C10_witness :
    listMin (extractValues attemptsHigh "income_statement" "revenue") ≤ 400
    ∧ (400 : ℚ) ≤ listMax (extractValues attemptsHigh "income_statement" "revenue") := by
  refine claim_C10 "income_statement" "revenue" attemptsHigh envEmpty 1950 400 ?_
  simp only [process_numeric_field, smooth_numeric_field, extractValues, getPath, getGroup,
    adjacentReports, attemptsHigh, revReport, envEmpty, mean, discOf, listMin, listMax,
    List.filterMap, List.lookup, Option.bind, List.cons_ne_nil, ne_eq]
  norm_num [List.cons_ne_nil, min_def, max_def]

/-- Every pair produced by the driver loop carries a year from the input
year list. -/
theorem runYears_subset (load env : Int → List Report) :
    ∀ (ys : List Int) (out : List (Int × Summary)),
      runYears load env ys = .ok out → ∀ p ∈ out, p.1 ∈ ys := by
  intro ys
  induction ys with
  | nil =>
    intro out h p hp
    simp only [runYears, Except.ok.injEq] at h
    subst h
    cases hp
  | cons y ys ih =>
    intro out h p hp
    simp only [runYears] at h
    cases hs : process_year_reports load env y with
    | error e =>
      rw [hs] at h
      simp at h
    | ok o =>
      rw [hs] at h
      cases hrest : runYears load env ys with
      | error e =>
        rw [hrest] at h
        cases o <;> simp at h
      | ok rest =>
        rw [hrest] at h
        cases o with
        | none =>
          simp only [Except.ok.injEq] at h
          subst h
          exact List.mem_cons_of_mem y (ih rest hrest p hp)
        | some sm =>
          simp only [Except.ok.injEq] at h
          subst h
          rcases List.mem_cons.mp hp with h' | h'
          · subst h'
            exact List.mem_cons_self y ys
          · exact List.mem_cons_of_mem y (ih rest hrest p h')

/-- C5: a (company, year) for which no attempt file can be loaded produces
no summary at all — `process_year_reports` yields nothing, the driver loop's
output over `year :: ys` is exactly its output over `ys` (processing
continues), and no record for that year appears in the output. -/
theorem claim_C5 (load env : Int → List Report) (year : Int) (ys : List Int)
    (hload : load year = []) :
    process_year_reports load env year = .ok none
    ∧ runYears load env (year :: ys) = runYears load env ys
    ∧ (year ∉ ys → ∀ out, runYears load env (year :: ys) = .ok out →
        year ∉ out.map Prod.fst) := by
  have h1 : process_year_reports load env year = .ok none := by
    simp only [process_year_reports, hload]
  have h2 : runYears load env (year :: ys) = runYears load env ys := by
    simp only [runYears, h1]
    cases hrest : runYears load env ys with
    | error e => rfl
    | ok rest => rfl
  refine ⟨h1, h2, ?_⟩
  intro hy out hout
  rw [h2] at hout
  intro hmem
  rcases List.mem_map.mp hmem with ⟨p, hp, hfst⟩
  exact hy (hfst ▸ runYears_subset load env ys out hout p hp)

theorem claim_C5_witness :
    process_year_reports load1950 envEmpty 1949 = .ok none
    ∧ runYears load1950 envEmpty [1949] = runYears load1950 envEmpty [] := by
  have h := claim_C5 load1950 envEmpty 1949 [] (by norm_num [load1950])
  exact ⟨h.1, h.2.1⟩

/-- Key preservation of the reconciling loop: when `buildGroup` succeeds, the
output association list has exactly the input keys, in order. -/
theorem buildGroup_keys (g : String) (reports : List Report)
    (env : Int → List Report) (year : Int) :
    ∀ (keys : List String) (out : List (String × Option ℚ)),
      buildGroup g keys reports env year = .ok out →
      out.map Prod.fst = keys := by
  intro keys
  induction keys with
  | nil =>
    intro out h
    simp only [buildGroup, Except.ok.injEq] at h
    subst h
    rfl
  | cons k ks ih =>
    intro out h
    simp only [buildGroup] at h
    cases hk : process_numeric_field g k reports env year with
    | error e =>
      rw [hk] at h
      simp at h
    | ok v =>
      rw [hk] at h
      cases hrest : buildGroup g ks reports env year with
      | error e =>
        rw [hrest] at h
        simp at h
      | ok rest =>
        rw [hrest] at h
        simp only [Except.ok.injEq] at h
        subst h
        simp only [List.map_cons, ih rest hrest]

/-- C6: every field key of the primary attempt's `income_statement`,
`balance_sheet` and `employees` groups has a corresponding (possibly null)
entry in the produced summary's matching group — the summary's key lists are
exactly the primary's, so no key is dropped. -/
theorem claim_C6 (load env : Int → List Report) (year : Int) (s : Summary)
    (primary : Report) (rest : List Report)
    (hload : load year = primary :: rest)
    (h : process_year_reports load env year = .ok (some s)) :
    (∀ k ∈ groupKeys primary.income_statement, k ∈ s.income_statement.map Prod.fst)
    ∧ (∀ k ∈ groupKeys primary.balance_sheet, k ∈ s.balance_sheet.map Prod.fst)
    ∧ (∀ k ∈ groupKeys primary.employees, k ∈ s.employees.map Prod.fst) := by
  simp only [process_year_reports, hload] at h
  cases hinc : buildGroup "income_statement" (groupKeys primary.income_statement)
      (primary :: rest) env year with
  | error e =>
    rw [hinc] at h
    simp at h
  | ok inc =>
    rw [hinc] at h
    cases hbal : buildGroup "balance_sheet" (groupKeys primary.balance_sheet)
        (primary :: rest) env year with
    | error e =>
      rw [hbal] at h
      simp at h
    | ok bal =>
      rw [hbal] at h
      cases hemp : buildGroup "employees" (groupKeys primary.employees)
          (primary :: rest) env year with
      | error e =>
        rw [hemp] at h
        simp at h
      | ok emp =>
        rw [hemp] at h
        simp only [Except.ok.injEq, Option.some.injEq] at h
        subst h
        refine ⟨?_, ?_, ?_⟩
        · intro k hk
          rw [buildGroup_keys _ _ _ _ _ _ hinc]
          exact hk
        · intro k hk
          rw [buildGroup_keys _ _ _ _ _ _ hbal]
          exact hk
        · intro k hk
          rw [buildGroup_keys _ _ _ _ _ _ hemp]
          exact hk

theorem claim_C6_witness :
    ("revenue" : String) ∈ sum1950.income_statement.map Prod.fst := by
  have hload : load1950 1950 = [revReport 100] := by norm_num [load1950]
  have hrun : process_year_reports load1950 envEmpty 1950 = .ok (some sum1950) := by
    simp only [process_year_reports, hload, buildGroup, groupKeys, revReport,
      process_numeric_field, smooth_numeric_field, extractValues, getPath, getGroup,
      adjacentReports, envEmpty, mean, discOf, listMin, listMax, List.filterMap,
      List.lookup, Option.bind, List.cons_ne_nil, ne_eq, sum1950]
    norm_num [List.cons_ne_nil, min_def, max_def, sum1950]
  exact (claim_C6 load1950 envEmpty 1950 sum1950 (revReport 100) [] hload hrun).1
    "revenue" (by simp [groupKeys, revReport])

/-! ## Claims about the Cross-Sectional Assembler (`09-get-pandas-df.py`) -/

theorem lookup_restrictTo_of_not_mem (g : List (String × Option ℚ)) :
    ∀ {ks : List String} {k : String}, k ∉ ks →
      (restrictTo g ks).lookup k = none := by
  intro ks
  induction ks with
  | nil => intro k _; rfl
  | cons k' ks ih =>
    intro k hk
    have hne : k ≠ k' := fun h => hk (h ▸ List.mem_cons_self k' ks)
    have htail : k ∉ ks := fun h => hk (List.mem_cons_of_mem k' h)
    simp only [restrictTo, List.filterMap_cons]
    cases hg : g.lookup k' with
    | none => exact ih htail
    | some v =>
      simp only [Option.map_some']
      rw [List.lookup_cons]
      simp only [beq_eq_false_iff_ne.mpr hne]
      exact ih htail

theorem lookup_restrictTo_of_mem (g : List (String × Option ℚ)) :
    ∀ {ks : List String}, ks.Nodup → ∀ {k : String}, k ∈ ks →
      (restrictTo g ks).lookup k = g.lookup k := by
  intro ks
  induction ks with
  | nil => intro _ k hk; cases hk
  | cons k' ks ih =>
    intro hnd k hk
    have hk' : k' ∉ ks := (List.nodup_cons.mp hnd).1
    have hnd' : ks.Nodup := (List.nodup_cons.mp hnd).2
    simp only [restrictTo, List.filterMap_cons]
    rcases List.mem_cons.mp hk with h | h
    · subst h
      cases hg : g.lookup k with
      | none =>
        exact lookup_restrictTo_of_not_mem g hk'
      | some v =>
        simp only [Option.map_some']
        rw [List.lookup_cons]
        simp
    · have hne : k ≠ k' := fun he => hk' (he ▸ h)
      cases hg : g.lookup k' with
      | none => exact ih hnd' h
      | some v =>
        simp only [Option.map_some']
        rw [List.lookup_cons]
        simp only [beq_eq_false_iff_ne.mpr hne]
        exact ih hnd' h

/-- C9 (counterexample): the assembler does not fail — nor detect, report,
or recover from — a schema disagreement.  `sumRevenue` and `sumWeird`
disagree on their field-name sets, yet assembly returns two plain records
normally, and the divergent field `weird_field` influences nothing: the
record built from `sumWeird` equals the record built from a summary with no
fields at all, instead of the claimed union-of-columns with nulls. -/
theorem claim_C9_counterexample :
    fieldNames sumRevenue ≠ fieldNames sumWeird
    ∧ assemble [("A", 1900, sumRevenue), ("A", 1900, sumWeird)]
        = [makeRecord "A" 1900 sumRevenue, makeRecord "A" 1900 sumWeird]
    ∧ makeRecord "A" 1900 sumWeird = makeRecord "A" 1900 emptySum := by
  refine ⟨?_, rfl, ?_⟩
  · simp [fieldNames, sumRevenue, sumWeird]
  · rfl

/-- C9 (amended): the assembler never compares field sets: it produces one
record per summary unconditionally, reading only the fixed seventeen numeric
field names — a summary's unknown fields are ignored (projecting a summary
onto the fixed names leaves its record unchanged) and absent fields are
already null in the record. -/
theorem claim_C9_amended :
    (∀ entries : List (String × Int × Summary),
      (assemble entries).length = entries.length)
    ∧ (∀ (c : String) (y : Int) (s : Summary),
      makeRecord c y s = makeRecord c y (projectFixed s)) := by
  constructor
  · intro entries
    simp [assemble]
  · intro c y s
    have hinc : ∀ k ∈ incomeKeys,
        (restrictTo s.income_statement incomeKeys).lookup k
          = s.income_statement.lookup k :=
      fun k hk => lookup_restrictTo_of_mem _ (by decide) hk
    have hbal : ∀ k ∈ balanceKeys,
        (restrictTo s.balance_sheet balanceKeys).lookup k
          = s.balance_sheet.lookup k :=
      fun k hk => lookup_restrictTo_of_mem _ (by decide) hk
    have hemp : ∀ k ∈ employeeKeys,
        (restrictTo s.employees employeeKeys).lookup k
          = s.employees.lookup k :=
      fun k hk => lookup_restrictTo_of_mem _ (by decide) hk
    simp only [makeRecord, projectFixed, lookupQ]
    rw [hinc "revenue" (by simp [incomeKeys]),
      hinc "cost_of_goods_sold" (by simp [incomeKeys]),
      hinc "operating_expenses" (by simp [incomeKeys]),
      hinc "wages_expense" (by simp [incomeKeys]),
      hinc "tax_expense" (by simp [incomeKeys]),
      hinc "depreciation" (by simp [incomeKeys]),
      hinc "net_income" (by simp [incomeKeys]),
      hbal "total_assets" (by simp [balanceKeys]),
      hbal "current_assets" (by simp [balanceKeys]),
      hbal "fixed_assets" (by simp [balanceKeys]),
      hbal "total_liabilities" (by simp [balanceKeys]),
      hbal "current_liabilities" (by simp [balanceKeys]),
      hbal "long_term_liabilities" (by simp [balanceKeys]),
      hbal "shareholders_equity" (by simp [balanceKeys]),
      hemp "n_employees" (by simp [employeeKeys]),
      hemp "n_blue_collar_workers" (by simp [employeeKeys]),
      hemp "n_white_collar_workers" (by simp [employeeKeys])]

/-! ## Claims about the Scale Normalizer and Winsorizer
(`10-smooth-series.py`) -/

/-- C7: scale normalization changes a value only when the series has at
least 10 strictly positive values, the two cluster centers differ by at
least 2.5 in log10 space, and the position is a strictly positive entry of
the lower-centered cluster — in which case it is multiplied by
`10^(center_high − center_low)`; every other value (non-positive, null,
higher-cluster, or any value of a series failing the preconditions) passes
through unchanged.  The second conjunct makes the positivity explicit:
lower-cluster positions always hold strictly positive values. -/
theorem claim_C7 (km : KMeansFit) (s : List (Option ℝ)) (i : ℕ) (hi : i < s.length) :
    ((adjust_scale km s).getD i none =
      if 10 ≤ (posIndices s).length ∧ 2.5 ≤ |kmCenter0 km s - kmCenter1 km s|
          ∧ i ∈ lowerIndices km s
      then (s.getD i none).map fun v => v * scaleFactor km s
      else s.getD i none)
    ∧ (i ∈ lowerIndices km s → ∃ v, s.getD i none = some v ∧ 0 < v) := by
  constructor
  · by_cases h10 : (posIndices s).length < 10
    · rw [adjust_scale, if_pos h10, if_neg]
      rintro ⟨h, -, -⟩
      omega
    · have h10' : 10 ≤ (posIndices s).length := not_lt.mp h10
      by_cases hgap : |kmCenter0 km s - kmCenter1 km s| < 2.5
      · rw [adjust_scale, if_neg h10, if_pos hgap, if_neg]
        rintro ⟨-, h, -⟩
        linarith
      · have hgap' : (2.5 : ℝ) ≤ |kmCenter0 km s - kmCenter1 km s| := not_lt.mp hgap
        rw [adjust_scale, if_neg h10, if_neg hgap]
        have hmlen : i < (s.enum.map fun p =>
            if p.1 ∈ lowerIndices km s then p.2.map fun v => v * scaleFactor km s
            else p.2).length := by
          simpa using hi
        rw [List.getD_eq_getElem _ _ hmlen, List.getElem_map, List.getElem_enum,
          List.getD_eq_getElem _ _ hi]
        by_cases hmem : i ∈ lowerIndices km s
        · rw [if_pos hmem, if_pos ⟨h10', hgap', hmem⟩]
        · rw [if_neg hmem, if_neg fun hc => hmem hc.2.2]
  · intro hmem
    simp only [lowerIndices, List.mem_filterMap] at hmem
    obtain ⟨⟨j, lab⟩, hp, hpi⟩ := hmem
    by_cases hl : lab = lowerCluster km s
    · rw [if_pos hl] at hpi
      have hj : j = i := by
        simpa using hpi
      subst hj
      have hpos : j ∈ posIndices s := (List.of_mem_zip hp).1
      simp only [posIndices, List.mem_filter] at hpos
      obtain ⟨-, hpred⟩ := hpos
      cases hv : s.getD j none with
      | none =>
        simp only [hv] at hpred
        cases hpred
      | some v =>
        simp only [hv] at hpred
        by_cases h0 : 0 < v
        · exact ⟨v, rfl, h0⟩
        · rw [if_neg h0] at hpred
          cases hpred
    · rw [if_neg hl] at hpi
      cases hpi

theorem claim_C7_witness :
    (adjust_scale kmTrivial [some (1 : ℝ)]).getD 0 none = some 1 := by
  have h := (claim_C7 kmTrivial [some (1 : ℝ)] 0 (by norm_num)).1
  rw [h, if_neg]
  · rfl
  · rintro ⟨h10, -, -⟩
    have hpos : posIndices [some (1 : ℝ)] = [0] := by
      norm_num [posIndices, List.range_succ, List.filter, List.getD]
    rw [hpos] at h10
    norm_num at h10

theorem getD_nonneg {l : List ℝ} (h : ∀ x ∈ l, 0 ≤ x) (i : ℕ) : 0 ≤ l.getD i 0 := by
  by_cases hi : i < l.length
  · rw [List.getD_eq_getElem _ _ hi]
    exact h _ (List.getElem_mem hi)
  · rw [List.getD_eq_default _ _ (not_lt.mp hi)]

theorem median_nonneg {l : List ℝ} (h : ∀ x ∈ l, 0 ≤ x) : 0 ≤ median l := by
  have hs : ∀ x ∈ l.mergeSort fun a b => decide (a ≤ b), 0 ≤ x := fun x hx =>
    h x ((List.mergeSort_perm l _).subset hx)
  rw [median]
  split
  · exact getD_nonneg hs _
  · split
    · exact le_refl 0
    · exact div_nonneg (add_nonneg (getD_nonneg hs _) (getD_nonneg hs _)) (by norm_num)

theorem madOr_nonneg (l : List ℝ) : 0 ≤ madOr l := by
  rw [madOr]
  split
  · exact Real.sqrt_nonneg _
  · refine median_nonneg fun x hx => ?_
    obtain ⟨y, -, rfl⟩ := List.mem_map.mp hx
    exact abs_nonneg _

/-- The median of twenty copies of `a` followed by one larger value is `a`. -/
theorem median_rep20 (a b : ℝ) (hab : a ≤ b) :
    median (List.replicate 20 a ++ [b]) = a := by
  have hsort : (List.replicate 20 a ++ [b]).mergeSort (fun x y => decide (x ≤ y))
      = List.replicate 20 a ++ [b] := by
    apply List.mergeSort_eq_self
    refine List.pairwise_append.mpr ⟨?_, ?_, ?_⟩
    · exact List.pairwise_replicate.mpr (Or.inr le_rfl)
    · exact List.pairwise_singleton _ _
    · intro x hx y hy
      rw [List.eq_of_mem_replicate hx, List.mem_singleton.mp hy]
      exact hab
  have hlen : (List.replicate 20 a ++ [b]).length = 21 := by simp
  simp only [median, hsort, hlen]
  norm_num
  rw [List.getElem_append_left (by simp)]
  exact List.getElem_replicate _ _

theorem median_constOutlier (v : ℝ) (hv : 0 < v) : median (constOutlier v) = v := by
  simp only [constOutlier]
  exact median_rep20 v (v * 100) (by nlinarith)

/-- The absolute deviations from the median of the example series are twenty
zeros and one `99·v`, so their median — the MAD — is exactly 0. -/
theorem mad_constOutlier (v : ℝ) (hv : 0 < v) :
    median ((constOutlier v).map fun x => |x - median (constOutlier v)|) = 0 := by
  have habs : |v * 100 - v| = 99 * v := by
    rw [show v * 100 - v = 99 * v from by ring]
    exact abs_of_pos (by positivity)
  have hdev : (constOutlier v).map (fun x => |x - median (constOutlier v)|)
      = List.replicate 20 0 ++ [99 * v] := by
    rw [median_constOutlier v hv]
    simp only [constOutlier, List.map_append, List.map_replicate, List.map_cons,
      List.map_nil, sub_self, abs_zero, habs]
  rw [hdev]
  exact median_rep20 0 (99 * v) (by positivity)

theorem meanR_constOutlier (v : ℝ) : meanR (constOutlier v) = 120 * v / 21 := by
  simp only [meanR, constOutlier, List.sum_append, List.sum_replicate, nsmul_eq_mul,
    List.sum_cons, List.sum_nil, List.length_append, List.length_replicate,
    List.length_cons, List.length_nil]
  norm_num
  ring

theorem std_constOutlier (v : ℝ) :
    std (constOutlier v) = Real.sqrt (22869 / 49 * v ^ 2) := by
  rw [std, meanR_constOutlier]
  simp only [constOutlier, List.map_append, List.map_replicate, List.map_cons,
    List.map_nil, List.sum_append, List.sum_replicate, nsmul_eq_mul, List.sum_cons,
    List.sum_nil, List.length_append, List.length_replicate, List.length_cons,
    List.length_nil]
  congr 1
  push_cast
  field_simp
  ring

theorem std_constOutlier_le (v : ℝ) (hv : 0 < v) : std (constOutlier v) ≤ 33 * v := by
  rw [std_constOutlier]
  rw [show (33 * v) = Real.sqrt ((33 * v) ^ 2) from (Real.sqrt_sq (by positivity)).symm]
  apply Real.sqrt_le_sqrt
  nlinarith [sq_nonneg v]

/-- C8: `winsorize` with threshold 3 clips every value pointwise to
`[median − 3·MAD, median + 3·MAD]`, with the (sample) standard deviation
substituted for the MAD when the MAD is exactly 0; on twenty copies of a
positive `v` plus the outlier `v·100` the MAD is 0, the std-dev fallback
fires, the outlier is capped to `median + 3·std`, and the in-band values are
unchanged. -/
theorem claim_C8 :
    (∀ (series : List ℝ) (i : ℕ), i < series.length →
      (winsorize series 3).getD i 0 =
        if series.getD i 0 < median series - 3 * madOr series
          then median series - 3 * madOr series
        else if median series + 3 * madOr series < series.getD i 0
          then median series + 3 * madOr series
        else series.getD i 0)
    ∧ (∀ v : ℝ, 0 < v →
      median ((constOutlier v).map fun x => |x - median (constOutlier v)|) = 0
      ∧ (winsorize (constOutlier v) 3).getD 20 0
          = median (constOutlier v) + 3 * std (constOutlier v)
      ∧ ∀ i, i < 20 → (winsorize (constOutlier v) 3).getD i 0 = v) := by
  constructor
  · intro series i hi
    have h0 : (0 : ℝ) ≤ madOr series := madOr_nonneg series
    have hlh : median series - 3 * madOr series
        ≤ median series + 3 * madOr series := by linarith
    have hml : i < (winsorize series 3).length := by simpa [winsorize] using hi
    rw [List.getD_eq_getElem _ _ hml]
    simp only [winsorize, List.getElem_map]
    rw [List.getD_eq_getElem _ _ hi]
    by_cases h1 : series[i] < median series - 3 * madOr series
    · rw [if_pos h1, max_eq_right h1.le, min_eq_left hlh]
    · rw [if_neg h1, max_eq_left (not_lt.mp h1)]
      by_cases h2 : median series + 3 * madOr series < series[i]
      · rw [if_pos h2, min_eq_right h2.le]
      · rw [if_neg h2, min_eq_left (not_lt.mp h2)]
  · intro v hv
    have hmed := median_constOutlier v hv
    have hmad := mad_constOutlier v hv
    have hmadOr : madOr (constOutlier v) = std (constOutlier v) := by
      rw [madOr, if_pos hmad]
    have hstd0 : (0 : ℝ) ≤ std (constOutlier v) := Real.sqrt_nonneg _
    have hstd33 := std_constOutlier_le v hv
    refine ⟨hmad, ?_, ?_⟩
    · have hb : 20 < (constOutlier v).length := by simp [constOutlier]
      have hlen : 20 < (winsorize (constOutlier v) 3).length := by
        simp [winsorize, constOutlier]
      have h20 : (constOutlier v)[20] = v * 100 := by
        simp only [constOutlier]
        rw [List.getElem_append_right (by simp)]
        simp
      rw [List.getD_eq_getElem _ _ hlen]
      simp only [winsorize, List.getElem_map]
      rw [h20, hmed, hmadOr]
      rw [max_eq_left (by nlinarith), min_eq_right (by nlinarith)]
    · intro i hi20
      have hbi : i < (constOutlier v).length := by
        simp only [constOutlier, List.length_append, List.length_replicate,
          List.length_cons, List.length_nil]
        omega
      have hlen : i < (winsorize (constOutlier v) 3).length := by
        simpa [winsorize] using hbi
      have hie : (constOutlier v)[i] = v := by
        simp only [constOutlier]
        rw [List.getElem_append_left (by simpa using hi20)]
        exact List.getElem_replicate _ _
      rw [List.getD_eq_getElem _ _ hlen]
      simp only [winsorize, List.getElem_map]
      rw [hie, hmed, hmadOr]
      rw [max_eq_left (by nlinarith), min_eq_left (by nlinarith)]

theorem claim_C8_witness :
    ((winsorize (constOutlier 1) 3).getD 20 0
        = median (constOutlier 1) + 3 * std (constOutlier 1))
    ∧ median ((constOutlier 1).map fun x => |x - median (constOutlier 1)|) = 0 :=
  ⟨((claim_C8.2 1 (by norm_num)).2).1, (claim_C8.2 1 (by norm_num)).1⟩

end AnnualReports
